import Mathlib

set_option linter.unusedVariables false

namespace Jackal

/-!
Shallow embedding of the jackal c2s session manager / stanza router
(stream/c2s package) and of the XEP-0077 in-band registration module
(module/xep0077/xep_0077.go).

Go maps are embedded as association lists (key listed at most once in every
state the code constructs); Go slices as lists; Go methods that mutate the
receiver as functions returning the updated record; Go error returns as an
Option of the error; calls into the storage singleton as an explicit storage
parameter, with the calls the code performs recorded where a claim needs them.
-/

/-! ### Association-list rendering of Go maps -/

/-- Lookup of a key in a Go map rendered as an association list. -/
def mapLookup {α : Type} (k : String) : List (String × α) → Option α
  | [] => none
  | p :: rest => if p.1 == k then some p.2 else mapLookup k rest

/-- Go map assignment: replace the first binding of the key, or append one. -/
def mapInsert {α : Type} (k : String) (v : α) : List (String × α) → List (String × α)
  | [] => [(k, v)]
  | p :: rest => if p.1 == k then (k, v) :: rest else p :: mapInsert k v rest

/-- Go map deletion: drop every binding of the key. -/
def mapErase {α : Type} (k : String) (l : List (String × α)) : List (String × α) :=
  l.filter (fun p => !(p.1 == k))

/-! ### JIDs -/

/-- Modelled from the spec: a JID has node, domain and resource components;
the xml library holding the concrete type is outside src. -/
structure JID where
  node : String
  domain : String
  resource : String
deriving DecidableEq, Repr

/-- Modelled from the spec: the matching bitmask over components
Node, Domain, Resource. -/
structure MatchingOptions where
  node : Bool
  domain : Bool
  resource : Bool
deriving DecidableEq, Repr

/-- Modelled from the spec: a server JID is one with no node part. -/
def JID.IsServer (j : JID) : Bool := j.node.isEmpty

/-- Modelled from the spec: a bare JID is node at domain, no resource. -/
def JID.IsBare (j : JID) : Bool := !j.node.isEmpty && j.resource.isEmpty

/-- Modelled from the spec: a full JID carries a resource. -/
def JID.IsFull (j : JID) : Bool := !j.resource.isEmpty

/-- Modelled from the spec: full-with-user means node and resource present. -/
def JID.IsFullWithUser (j : JID) : Bool := !j.node.isEmpty && !j.resource.isEmpty

/-- Modelled from the spec: full-with-server means resource but no node. -/
def JID.IsFullWithServer (j : JID) : Bool := j.node.isEmpty && !j.resource.isEmpty

/-- Modelled from the spec: comparison restricted to the components selected
by the bitmask. -/
def JID.Matches (j j2 : JID) (opts : MatchingOptions) : Bool :=
  (!opts.node || j.node == j2.node) &&
  (!opts.domain || j.domain == j2.domain) &&
  (!opts.resource || j.resource == j2.resource)

/-- Modelled from the spec: the bare JID keeps node and domain and drops
the resource. -/
def JID.ToBareJID (j : JID) : JID := { j with resource := "" }

/-! ### Streams -/

/-- A presence stanza as far as the router reads it: its priority.
The source reads it through Presence().Priority() (a signed 8-bit value);
only comparisons are performed on it, so it is embedded as an Int. -/
structure Presence where
  priority : Int
deriving DecidableEq, Repr

/-- The c2s Stream interface of the source, as the immutable record of the
answers its getters return. -/
structure StreamRec where
  id : String
  username : String
  domain : String
  resource : String
  presence : Option Presence
  secured : Bool
  authenticated : Bool
deriving DecidableEq, Repr

/-- The JID() getter of a stream. -/
def StreamRec.JID (s : StreamRec) : JID := ⟨s.username, s.domain, s.resource⟩

/-! ### Storage consumed by the router -/

/-- Result of a storage call: Go value-and-error pair. -/
inductive SRes (α : Type) where
  | ok (val : α)
  | fail (msg : String)
deriving DecidableEq, Repr

/-- Modelled from the spec: the storage interface the router consumes;
the storage package is outside src. Block list items are given directly as
parsed JIDs. -/
structure Storage where
  userExists : String → SRes Bool
  fetchBlockListItems : String → SRes (List JID)

/-! ### The session manager -/

/-- The Manager state: local domains from the configuration, plus the three
maps stms, authedStms and blockLists. -/
structure Manager where
  domains : List String
  stms : List (String × StreamRec)
  authedStms : List (String × List StreamRec)
  blockLists : List (String × List JID)
deriving DecidableEq, Repr

/-- A freshly initialized manager: three empty maps. -/
def initManager (domains : List String) : Manager := ⟨domains, [], [], []⟩

/-- IsLocalDomain returns true if domain is a local server domain. -/
def Manager.IsLocalDomain (m : Manager) (domain : String) : Bool :=
  m.domains.contains domain

/-- RegisterStream: reject a non-local domain, reject an already registered
stream id, otherwise insert into stms. -/
def Manager.RegisterStream (m : Manager) (stm : StreamRec) : Manager × Option String :=
  if !m.IsLocalDomain stm.domain then
    (m, some ("invalid domain: " ++ stm.domain))
  else
    match mapLookup stm.id m.stms with
    | some _ => (m, some ("stream already registered: " ++ stm.id))
    | none => ({ m with stms := mapInsert stm.id stm m.stms }, none)

/-- The removal loop of UnregisterStream: drop the first element whose
resource equals the given one. -/
def removeFirstByResource (res : String) : List StreamRec → List StreamRec
  | [] => []
  | s :: rest =>
    if res == s.resource then rest else s :: removeFirstByResource res rest

/-- UnregisterStream: fail when the stream id is unknown; otherwise remove the
first same-resource entry from the authenticated list of the stream's
username (deleting the key when the list becomes empty) and delete the
stream id from stms. -/
def Manager.UnregisterStream (m : Manager) (stm : StreamRec) : Manager × Option String :=
  match mapLookup stm.id m.stms with
  | none => (m, some ("stream not found: " ++ stm.id))
  | some _ =>
    let newAuthed :=
      match mapLookup stm.username m.authedStms with
      | none => m.authedStms
      | some l =>
        let l2 := removeFirstByResource stm.resource l
        if l2.isEmpty then mapErase stm.username m.authedStms
        else mapInsert stm.username l2 m.authedStms
    ({ m with stms := mapErase stm.id m.stms, authedStms := newAuthed }, none)

/-- AuthenticateStream: fail when no resource is assigned, otherwise append
the stream to the authenticated list of its username. -/
def Manager.AuthenticateStream (m : Manager) (stm : StreamRec) : Manager × Option String :=
  if stm.resource.isEmpty then
    (m, some ("resource not yet assigned: " ++ stm.id))
  else
    let l := (mapLookup stm.username m.authedStms).getD []
    ({ m with authedStms := mapInsert stm.username (l ++ [stm]) m.authedStms }, none)

/-- getBlockList: return the cached list when present; otherwise fetch from
storage (on failure return nil without caching), cache and return it. -/
def Manager.getBlockList (m : Manager) (st : Storage) (username : String) :
    List JID × Manager :=
  match mapLookup username m.blockLists with
  | some bl => (bl, m)
  | none =>
    match st.fetchBlockListItems username with
    | .fail _ => ([], m)
    | .ok items => (items, { m with blockLists := mapInsert username items m.blockLists })

/-- jidMatchesBlockedJID: pick the matching mask from the shape of the
blocked JID. -/
def jidMatchesBlockedJID (jid blockedJID : JID) : Bool :=
  if blockedJID.IsFullWithUser then
    jid.Matches blockedJID ⟨true, true, true⟩
  else if blockedJID.IsFullWithServer then
    jid.Matches blockedJID ⟨false, true, true⟩
  else if blockedJID.IsBare then
    jid.Matches blockedJID ⟨true, true, false⟩
  else
    jid.Matches blockedJID ⟨false, true, false⟩

/-- IsBlockedJID: true when any entry of the user's block list matches. -/
def Manager.IsBlockedJID (m : Manager) (st : Storage) (jid : JID) (username : String) :
    Bool × Manager :=
  let r := m.getBlockList st username
  (r.1.any (fun blkJID => jidMatchesBlockedJID jid blkJID), r.2)

/-- StreamsMatchingJID: all authenticated streams matching the JID under the
mask (Domain always; Resource when the JID is full; Node when present). -/
def Manager.StreamsMatchingJID (m : Manager) (jid : JID) : List StreamRec :=
  if !m.IsLocalDomain jid.domain then []
  else if !jid.node.isEmpty then
    ((mapLookup jid.node m.authedStms).getD []).filter
      (fun stm => stm.JID.Matches jid ⟨true, true, jid.IsFull⟩)
  else
    m.authedStms.flatMap
      (fun p => p.2.filter (fun stm => stm.JID.Matches jid ⟨false, true, jid.IsFull⟩))

/-! ### Stanza routing -/

/-- The stanza kinds the router distinguishes. -/
inductive StanzaKind where
  | message
  | presence
  | iq
deriving DecidableEq, Repr

/-- A stanza as the router reads it: kind, sender and destination. -/
structure Stanza where
  kind : StanzaKind
  fromJID : JID
  toJID : JID
deriving DecidableEq, Repr

/-- The distinguished router errors, and propagated storage errors. -/
inductive RouterErr where
  | notExistingAccount
  | resourceNotFound
  | notAuthenticated
  | blockedJID
  | storageErr (msg : String)
deriving DecidableEq, Repr

/-- The observable outcome of one route call: the SendElement calls in order,
the returned error (none for nil), and the updated manager. -/
structure RouteOutcome where
  sends : List StreamRec
  result : Option RouterErr
  mgr : Manager
deriving DecidableEq, Repr

/-- The selection loop of the message branch: starting from a current best
stream and priority, replace the best only on a strictly higher non-nil
presence priority. -/
def selectLoop (stm : StreamRec) (hp : Int) : List StreamRec → StreamRec
  | [] => stm
  | rcp :: rest =>
    match rcp.presence with
    | some p => if hp < p.priority then selectLoop rcp p.priority rest
                else selectLoop stm hp rest
    | none => selectLoop stm hp rest

/-- Effective priority of a stream: Presence().Priority() with nil presence
read as the zero initialization of highestPriority. -/
def effPrio (s : StreamRec) : Int :=
  match s.presence with
  | some p => p.priority
  | none => 0

/-- The message branch of route: seed the loop with the first recipient. -/
def selectHighest (hd : StreamRec) (tl : List StreamRec) : StreamRec :=
  selectLoop hd (effPrio hd) tl

/-- route: the internal routing algorithm, with ignoreBlocking as in the
source. -/
def Manager.route (m : Manager) (st : Storage) (elem : Stanza) (ignoreBlocking : Bool) :
    RouteOutcome :=
  let toJID := elem.toJID
  if !m.IsLocalDomain toJID.domain then ⟨[], none, m⟩
  else
    let blockCheck :=
      if !ignoreBlocking && !toJID.IsServer then m.IsBlockedJID st elem.fromJID toJID.node
      else (false, m)
    if blockCheck.1 then ⟨[], some .blockedJID, blockCheck.2⟩
    else
      let m1 := blockCheck.2
      match m1.StreamsMatchingJID toJID.ToBareJID with
      | [] =>
        match st.userExists toJID.node with
        | .fail e => ⟨[], some (.storageErr e), m1⟩
        | .ok true => ⟨[], some .notAuthenticated, m1⟩
        | .ok false => ⟨[], some .notExistingAccount, m1⟩
      | hd :: tl =>
        if toJID.IsFullWithUser then
          match (hd :: tl).find? (fun stm => stm.resource == toJID.resource) with
          | some stm => ⟨[stm], none, m1⟩
          | none => ⟨[], some .resourceNotFound, m1⟩
        else
          match elem.kind with
          | .message => ⟨[selectHighest hd tl], none, m1⟩
          | _ => ⟨hd :: tl, none, m1⟩

/-- Route applies server rules with blocking lists enforced. -/
def Manager.Route (m : Manager) (st : Storage) (elem : Stanza) : RouteOutcome :=
  m.route st elem false

/-- MustRoute applies server rules ignoring blocking lists. -/
def Manager.MustRoute (m : Manager) (st : Storage) (elem : Stanza) : RouteOutcome :=
  m.route st elem true

/-! ### XEP-0077 in-band registration -/

/-- The xep0077 configuration flags. -/
structure RegConfig where
  allowRegistration : Bool
  allowChange : Bool
  allowCancel : Bool
deriving DecidableEq, Repr

/-- The per-stream registration handler state. -/
structure XEPRegister where
  cfg : RegConfig
  stm : StreamRec
  registered : Bool
deriving DecidableEq, Repr

/-- The IQ types the handler distinguishes. -/
inductive IQType where
  | get
  | set
  | result
  | error
deriving DecidableEq, Repr

/-- Modelled from the spec: a child element of the registration query, with
its name and text; the xml element type is outside src. -/
structure XElement where
  name : String
  text : String
deriving DecidableEq, Repr

/-- Modelled from the spec: an IQ stanza carrying a registration-namespace
query, as the handler reads it: type, destination, query children. -/
structure IQ where
  type : IQType
  toJID : JID
  query : List XElement
deriving DecidableEq, Repr

/-- IsGet of an IQ. -/
def IQ.IsGet (iq : IQ) : Bool := iq.type == .get

/-- IsSet of an IQ. -/
def IQ.IsSet (iq : IQ) : Bool := iq.type == .set

/-- Child lookup among the query children, by element name. -/
def childEl (q : List XElement) (n : String) : Option XElement :=
  q.find? (fun e => e.name == n)

/-- Modelled from the spec: the stanza-error or result replies the handler
sends; the xml error constructors are outside src. -/
inductive Reply where
  | badRequest
  | notAllowed
  | notAcceptable
  | notAuthorized
  | conflict
  | forbidden
  | internalServerError
  | resultIQ
deriving DecidableEq, Repr

/-- One storage call made by the registration handler. -/
inductive StorageCall where
  | userExists (u : String)
  | insertOrUpdateUser (u p : String)
  | fetchUser (u : String)
  | deleteUser (u : String)
deriving DecidableEq, Repr

/-- A stored user record. -/
structure User where
  username : String
  password : String
deriving DecidableEq, Repr

/-- Modelled from the spec: the storage interface the registration handler
consumes; the storage package is outside src. -/
structure RegStorage where
  userExists : String → SRes Bool
  insertOrUpdateUser : String → String → SRes Unit
  fetchUser : String → SRes (Option User)
  deleteUser : String → SRes Unit

/-- The observable outcome of ProcessIQ: replies sent on the stream in order,
storage calls in order, and the updated handler state. -/
structure RegOutcome where
  sent : List Reply
  calls : List StorageCall
  handler : XEPRegister
deriving DecidableEq, Repr

/-- isValidToJid: server JID always; when unauthenticated also the bare JID
of the stream's username. -/
def XEPRegister.isValidToJid (x : XEPRegister) (j : JID) : Bool :=
  if x.stm.authenticated then j.IsServer
  else j.IsServer || (j.IsBare && j.node == x.stm.username)

/-- sendRegistrationFields: bad-request on a non-empty query, else the result
IQ carrying the empty username and password fields. -/
def XEPRegister.sendRegistrationFields (x : XEPRegister) (iq : IQ) : RegOutcome :=
  if iq.query.length > 0 then ⟨[.badRequest], [], x⟩
  else ⟨[.resultIQ], [], x⟩

/-- registerNewUser: validate the submitted fields, consult UserExists,
insert the user, reply, and set the registered latch on success. -/
def XEPRegister.registerNewUser (x : XEPRegister) (st : RegStorage) (iq : IQ) : RegOutcome :=
  match childEl iq.query "username", childEl iq.query "password" with
  | some userEl, some passwordEl =>
    if userEl.text.isEmpty || passwordEl.text.isEmpty then ⟨[.badRequest], [], x⟩
    else
      match st.userExists userEl.text with
      | .fail _ => ⟨[.internalServerError], [.userExists userEl.text], x⟩
      | .ok true => ⟨[.conflict], [.userExists userEl.text], x⟩
      | .ok false =>
        match st.insertOrUpdateUser userEl.text passwordEl.text with
        | .fail _ =>
          ⟨[.internalServerError],
           [.userExists userEl.text, .insertOrUpdateUser userEl.text passwordEl.text], x⟩
        | .ok _ =>
          ⟨[.resultIQ],
           [.userExists userEl.text, .insertOrUpdateUser userEl.text passwordEl.text],
           { x with registered := true }⟩
  | _, _ => ⟨[.badRequest], [], x⟩

/-- cancelRegistration: gated by AllowCancel and a singleton query, then
delete the stream's user. -/
def XEPRegister.cancelRegistration (x : XEPRegister) (st : RegStorage) (iq : IQ) : RegOutcome :=
  if !x.cfg.allowCancel then ⟨[.notAllowed], [], x⟩
  else if iq.query.length > 1 then ⟨[.badRequest], [], x⟩
  else
    match st.deleteUser x.stm.username with
    | .fail _ => ⟨[.internalServerError], [.deleteUser x.stm.username], x⟩
    | .ok _ => ⟨[.resultIQ], [.deleteUser x.stm.username], x⟩

/-- changePassword: gated by AllowChange, the username match and a secured
channel; then fetch, compare and persist. -/
def XEPRegister.changePassword (x : XEPRegister) (st : RegStorage)
    (password username : String) : RegOutcome :=
  if !x.cfg.allowChange then ⟨[.notAllowed], [], x⟩
  else if username != x.stm.username then ⟨[.notAllowed], [], x⟩
  else if !x.stm.secured then ⟨[.notAuthorized], [], x⟩
  else
    match st.fetchUser username with
    | .fail _ => ⟨[.internalServerError], [.fetchUser username], x⟩
    | .ok none => ⟨[.resultIQ], [.fetchUser username], x⟩
    | .ok (some user) =>
      if user.password != password then
        match st.insertOrUpdateUser username password with
        | .fail _ =>
          ⟨[.internalServerError], [.fetchUser username, .insertOrUpdateUser username password], x⟩
        | .ok _ =>
          ⟨[.resultIQ], [.fetchUser username, .insertOrUpdateUser username password], x⟩
      else ⟨[.resultIQ], [.fetchUser username], x⟩

/-- ProcessIQ: the destination check, then the state-dependent dispatch of
the source. -/
def XEPRegister.ProcessIQ (x : XEPRegister) (st : RegStorage) (iq : IQ) : RegOutcome :=
  if !x.isValidToJid iq.toJID then ⟨[.forbidden], [], x⟩
  else if !x.stm.authenticated then
    if iq.IsGet then
      if !x.cfg.allowRegistration then ⟨[.notAllowed], [], x⟩
      else x.sendRegistrationFields iq
    else if iq.IsSet then
      if !x.registered then x.registerNewUser st iq
      else ⟨[.notAcceptable], [], x⟩
    else ⟨[.badRequest], [], x⟩
  else if iq.IsSet then
    if (childEl iq.query "remove").isSome then x.cancelRegistration st iq
    else
      match childEl iq.query "username", childEl iq.query "password" with
      | some user, some password => x.changePassword st password.text user.text
      | _, _ => ⟨[.badRequest], [], x⟩
  else ⟨[.badRequest], [], x⟩

/-! ### Spec-side definitions

These render the spec's own words, to be compared against the source
renderings above. -/

/-- Modelled from the spec: the block-list matching table of section 4.4,
written by shape of the blocked entry. -/
def specBlockedMatch (j b : JID) : Bool :=
  if !b.node.isEmpty && !b.resource.isEmpty then
    j.node == b.node && j.domain == b.domain && j.resource == b.resource
  else if b.node.isEmpty && !b.resource.isEmpty then
    j.domain == b.domain && j.resource == b.resource
  else if !b.node.isEmpty && b.resource.isEmpty then
    j.node == b.node && j.domain == b.domain
  else
    j.domain == b.domain

/-- The candidate priorities of a recipient list: the first recipient always
contributes its effective priority; later recipients contribute their
priority only when their presence is non-nil. -/
def candVals (hd : StreamRec) (tl : List StreamRec) : List Int :=
  effPrio hd :: tl.filterMap (fun r => r.presence.map Presence.priority)

/-- The greatest candidate priority. -/
def candMax (hd : StreamRec) (tl : List StreamRec) : Int :=
  (tl.filterMap (fun r => r.presence.map Presence.priority)).foldl max (effPrio hd)

/-- The recipient the amended message rule names: the first candidate whose
candidate priority attains the maximum. -/
def specSelect (hd : StreamRec) (tl : List StreamRec) : StreamRec :=
  if effPrio hd = candMax hd tl then hd
  else
    (tl.find? (fun r =>
      decide (r.presence.map Presence.priority = some (candMax hd tl)))).getD hd

/-- The claim's reading of the message rule: the maximum effective priority
over all recipients, nil presence counting as zero. -/
def claimMaxEff (hd : StreamRec) (tl : List StreamRec) : Int :=
  (tl.map effPrio).foldl max (effPrio hd)

/-- The spec's authed invariant: every element of an authed list carries the
list's username as its own, has a non-empty resource, and is still present
in the stms map under its id. -/
def authedInvariant (m : Manager) : Prop :=
  ∀ p ∈ m.authedStms, ∀ s ∈ p.2,
    s.username = p.1 ∧ s.resource ≠ "" ∧ mapLookup s.id m.stms = some s

instance (m : Manager) : Decidable (authedInvariant m) := by
  unfold authedInvariant; infer_instance

/-- No two streams of one authed list share a resource. -/
def distinctResources (l : List StreamRec) : Prop :=
  l.Pairwise (fun a b => a.resource ≠ b.resource)

instance (l : List StreamRec) : Decidable (distinctResources l) := by
  unfold distinctResources; infer_instance

/-- States reachable by arbitrary sequences of the three lifecycle calls,
with no restriction on how callers use them. -/
inductive ReachableAny (doms : List String) : Manager → Prop where
  | init : ReachableAny doms (initManager doms)
  | register (s : StreamRec) {m : Manager} :
      ReachableAny doms m → ReachableAny doms (m.RegisterStream s).1
  | unregister (s : StreamRec) {m : Manager} :
      ReachableAny doms m → ReachableAny doms (m.UnregisterStream s).1
  | authenticate (s : StreamRec) {m : Manager} :
      ReachableAny doms m → ReachableAny doms (m.AuthenticateStream s).1

/-- States reachable when callers follow the protocol the spec describes:
AuthenticateStream is invoked only on a currently registered stream whose
resource is not already bound for its username (once per successful bind),
and UnregisterStream is passed the stream registered under its id. -/
inductive ReachableProto (doms : List String) : Manager → Prop where
  | init : ReachableProto doms (initManager doms)
  | register (s : StreamRec) {m : Manager} :
      ReachableProto doms m → ReachableProto doms (m.RegisterStream s).1
  | unregister (s : StreamRec) {m : Manager} :
      ReachableProto doms m →
      (∀ t, mapLookup s.id m.stms = some t → t = s) →
      ReachableProto doms (m.UnregisterStream s).1
  | authenticate (s : StreamRec) {m : Manager} :
      ReachableProto doms m →
      mapLookup s.id m.stms = some s →
      (∀ p ∈ m.authedStms, p.1 = s.username → ∀ t ∈ p.2, t.resource ≠ s.resource) →
      ReachableProto doms (m.AuthenticateStream s).1

/-- The auxiliary strengthening of the authed invariant that the protocol
preserves: the invariant itself, resource distinctness per list, and key
uniqueness of both maps. -/
def managerInv (m : Manager) : Prop :=
  authedInvariant m ∧
  (∀ p ∈ m.authedStms, distinctResources p.2) ∧
  (m.authedStms.map Prod.fst).Nodup ∧
  (m.stms.map Prod.fst).Nodup

/-! ## Theorems -/

/-- The source's shape dispatch of jidMatchesBlockedJID coincides pointwise
with the spec's matching table. -/
theorem jidMatches_eq_specBlockedMatch (j b : JID) :
    jidMatchesBlockedJID j b = specBlockedMatch j b := by
  unfold jidMatchesBlockedJID specBlockedMatch JID.IsFullWithUser JID.IsFullWithServer
    JID.IsBare JID.Matches
  cases hn : b.node.isEmpty <;> cases hr : b.resource.isEmpty <;> simp

/-- C4: IsBlockedJID(j, u) returns true iff some entry of the user's block
list (the cached or freshly loaded one) matches j under the components
determined by the entry's shape, per the spec's table. -/
theorem c4_isBlockedJID_matches_spec_table (m : Manager) (st : Storage) (j : JID) (u : String) :
    (m.IsBlockedJID st j u).1 = true ↔
      ∃ b ∈ (m.getBlockList st u).1, specBlockedMatch j b = true := by
  unfold Manager.IsBlockedJID
  simp [List.any_eq_true, jidMatches_eq_specBlockedMatch]

/-- C9: whenever RegisterStream, UnregisterStream or AuthenticateStream
returns an error, the manager state is left exactly as it was. -/
theorem c9_error_calls_leave_state_unchanged (m : Manager) (s : StreamRec) :
    ((m.RegisterStream s).2 ≠ none → (m.RegisterStream s).1 = m) ∧
    ((m.UnregisterStream s).2 ≠ none → (m.UnregisterStream s).1 = m) ∧
    ((m.AuthenticateStream s).2 ≠ none → (m.AuthenticateStream s).1 = m) := by
  refine ⟨?_, ?_, ?_⟩
  · unfold Manager.RegisterStream
    split
    · intro _; rfl
    · split
      · intro _; rfl
      · intro h; exact absurd rfl h
  · unfold Manager.UnregisterStream
    split
    · intro _; rfl
    · intro h; exact absurd rfl h
  · unfold Manager.AuthenticateStream
    split
    · intro _; rfl
    · intro h; exact absurd rfl h

/-- C9 witness: a concrete erroring call (unregistering an unknown stream on
the fresh manager) leaves the state unchanged. -/
theorem c9_witness :
    ((initManager ["example.org"]).UnregisterStream
        ⟨"id1", "alice", "example.org", "r", none, false, false⟩).2 ≠ none ∧
    ((initManager ["example.org"]).UnregisterStream
        ⟨"id1", "alice", "example.org", "r", none, false, false⟩).1 =
      initManager ["example.org"] :=
  ⟨by decide,
   (c9_error_calls_leave_state_unchanged (initManager ["example.org"])
      ⟨"id1", "alice", "example.org", "r", none, false, false⟩).2.1 (by decide)⟩

/-- C7: changePassword replies not-allowed when AllowChange is false or the
submitted username differs from the stream's; with those checks passed and
the stream not secured it replies not-authorized and performs no storage
call; and ProcessIQ hands a password-change set IQ on an authenticated
stream to changePassword. -/
theorem c7_changePassword_gates (st : RegStorage) (x : XEPRegister)
    (password username : String) :
    (x.cfg.allowChange = false →
      x.changePassword st password username = ⟨[.notAllowed], [], x⟩) ∧
    (username ≠ x.stm.username →
      x.changePassword st password username = ⟨[.notAllowed], [], x⟩) ∧
    (x.cfg.allowChange = true → username = x.stm.username → x.stm.secured = false →
      x.changePassword st password username = ⟨[.notAuthorized], [], x⟩) ∧
    (∀ iq ue pe, x.stm.authenticated = true → iq.type = .set →
      x.isValidToJid iq.toJID = true → childEl iq.query "remove" = none →
      childEl iq.query "username" = some ue → childEl iq.query "password" = some pe →
      x.ProcessIQ st iq = x.changePassword st pe.text ue.text) := by
  refine ⟨?_, ?_, ?_, ?_⟩
  · intro h
    unfold XEPRegister.changePassword
    simp [h]
  · intro h
    unfold XEPRegister.changePassword
    split
    · rfl
    · split
      · rfl
      · rename_i h1 h2
        simp only [bne_eq_false_iff_eq, Bool.not_eq_true] at h2
        exact absurd h2 h
  · intro h1 h2 h3
    unfold XEPRegister.changePassword
    simp [h1, h2, h3]
  · intro iq ue pe ha ht hv hr hu hp
    unfold XEPRegister.ProcessIQ
    simp [hv, ha, ht, hr, hu, hp, IQ.IsSet]

/-- C7 witness: a concrete authenticated, unsecured stream with matching
username and AllowChange on gets not-authorized and no storage call. -/
theorem c7_witness :
    (XEPRegister.changePassword
        ⟨⟨true, true, true⟩, ⟨"id1", "alice", "example.org", "r", none, false, true⟩, false⟩
        ⟨fun _ => .ok false, fun _ _ => .ok (), fun _ => .ok none, fun _ => .ok ()⟩
        "newpass" "alice") =
      ⟨[.notAuthorized], [],
       ⟨⟨true, true, true⟩, ⟨"id1", "alice", "example.org", "r", none, false, true⟩, false⟩⟩ :=
  (c7_changePassword_gates
      ⟨fun _ => .ok false, fun _ _ => .ok (), fun _ => .ok none, fun _ => .ok ()⟩
      ⟨⟨true, true, true⟩, ⟨"id1", "alice", "example.org", "r", none, false, true⟩, false⟩
      "newpass" "alice").2.2.1 rfl rfl rfl

/-- registerNewUser either leaves the handler unchanged or replies with the
result IQ. -/
theorem registerNewUser_handler_cases (x : XEPRegister) (st : RegStorage) (iq : IQ) :
    (x.registerNewUser st iq).handler = x ∨ (x.registerNewUser st iq).sent = [.resultIQ] := by
  unfold XEPRegister.registerNewUser
  repeat' split
  all_goals first
  | exact Or.inl rfl
  | exact Or.inr rfl

/-- The only replies registerNewUser can send. -/
theorem registerNewUser_sent_cases (x : XEPRegister) (st : RegStorage) (iq : IQ) :
    (x.registerNewUser st iq).sent = [.badRequest] ∨
    (x.registerNewUser st iq).sent = [.internalServerError] ∨
    (x.registerNewUser st iq).sent = [.conflict] ∨
    (x.registerNewUser st iq).sent = [.resultIQ] := by
  unfold XEPRegister.registerNewUser
  repeat' split
  all_goals simp

/-- C10: a failed registration attempt (bad-request, conflict or
internal-server-error) leaves the handler state, in particular the
registered latch, unchanged; while the latch is unset a set IQ is never
answered not-acceptable and, when its destination is valid, is handed to
registerNewUser afresh. -/
theorem c10_failed_registration_leaves_latch (st : RegStorage) (x : XEPRegister) (iq : IQ)
    (hauth : x.stm.authenticated = false) (hreg : x.registered = false)
    (hset : iq.type = .set) :
    ((x.ProcessIQ st iq).sent = [.badRequest] ∨ (x.ProcessIQ st iq).sent = [.conflict] ∨
        (x.ProcessIQ st iq).sent = [.internalServerError] →
      (x.ProcessIQ st iq).handler = x) ∧
    (x.ProcessIQ st iq).sent ≠ [.notAcceptable] ∧
    (x.isValidToJid iq.toJID = true → x.ProcessIQ st iq = x.registerNewUser st iq) := by
  have hdispatch : ∀ hv : x.isValidToJid iq.toJID = true,
      x.ProcessIQ st iq = x.registerNewUser st iq := by
    intro hv
    unfold XEPRegister.ProcessIQ
    simp [hv, hauth, hreg, hset, IQ.IsSet, IQ.IsGet]
  refine ⟨?_, ?_, hdispatch⟩
  · intro hfail
    cases hv : x.isValidToJid iq.toJID with
    | false =>
      unfold XEPRegister.ProcessIQ
      simp [hv]
    | true =>
      rw [hdispatch hv] at hfail ⊢
      rcases registerNewUser_handler_cases x st iq with h | h
      · exact h
      · rw [h] at hfail
        rcases hfail with h1 | h1 | h1 <;> exact absurd h1 (by simp)
  · cases hv : x.isValidToJid iq.toJID with
    | false =>
      unfold XEPRegister.ProcessIQ
      simp [hv]
    | true =>
      rw [hdispatch hv]
      rcases registerNewUser_sent_cases x st iq with h | h | h | h <;> simp [h]

/-- C10 witness: a conflicting registration (user already exists) on a fresh
unauthenticated handler leaves the handler unchanged. -/
theorem c10_witness :
    ((XEPRegister.ProcessIQ
        ⟨⟨true, true, true⟩, ⟨"id1", "", "example.org", "", none, false, false⟩, false⟩
        ⟨fun _ => .ok true, fun _ _ => .ok (), fun _ => .ok none, fun _ => .ok ()⟩
        ⟨.set, ⟨"", "example.org", ""⟩,
         [⟨"username", "alice"⟩, ⟨"password", "secret"⟩]⟩).sent = [.conflict]) ∧
    ((XEPRegister.ProcessIQ
        ⟨⟨true, true, true⟩, ⟨"id1", "", "example.org", "", none, false, false⟩, false⟩
        ⟨fun _ => .ok true, fun _ _ => .ok (), fun _ => .ok none, fun _ => .ok ()⟩
        ⟨.set, ⟨"", "example.org", ""⟩,
         [⟨"username", "alice"⟩, ⟨"password", "secret"⟩]⟩).handler =
      ⟨⟨true, true, true⟩, ⟨"id1", "", "example.org", "", none, false, false⟩, false⟩) :=
  ⟨by decide,
   (c10_failed_registration_leaves_latch
      ⟨fun _ => .ok true, fun _ _ => .ok (), fun _ => .ok none, fun _ => .ok ()⟩
      ⟨⟨true, true, true⟩, ⟨"id1", "", "example.org", "", none, false, false⟩, false⟩
      ⟨.set, ⟨"", "example.org", ""⟩,
       [⟨"username", "alice"⟩, ⟨"password", "secret"⟩]⟩
      rfl rfl rfl).1 (by decide)⟩

/-- On an unauthenticated stream with the latch unset, a valid-destination
set IQ is handed to registerNewUser. -/
theorem processIQ_unauth_set_fresh (st : RegStorage) (x : XEPRegister) (iq : IQ)
    (hauth : x.stm.authenticated = false) (hreg : x.registered = false)
    (hset : iq.type = .set) (hto : x.isValidToJid iq.toJID = true) :
    x.ProcessIQ st iq = x.registerNewUser st iq := by
  unfold XEPRegister.ProcessIQ
  simp [hto, hauth, hreg, hset, IQ.IsSet, IQ.IsGet]

/-- C6 counterexample: a register-namespace IQ set with a missing username
child but an invalid destination is answered forbidden, not bad-request, so
the claim's reply table does not hold of every such IQ set. -/
theorem c6_counterexample :
    childEl (IQ.mk .set ⟨"other", "example.org", ""⟩ []).query "username" = none ∧
    ((XEPRegister.mk ⟨true, true, true⟩
        ⟨"id1", "", "example.org", "", none, false, false⟩ false).ProcessIQ
      ⟨fun _ => .ok false, fun _ _ => .ok (), fun _ => .ok none, fun _ => .ok ()⟩
      ⟨.set, ⟨"other", "example.org", ""⟩, []⟩).sent = [.forbidden] ∧
    ((XEPRegister.mk ⟨true, true, true⟩
        ⟨"id1", "", "example.org", "", none, false, false⟩ false).ProcessIQ
      ⟨fun _ => .ok false, fun _ _ => .ok (), fun _ => .ok none, fun _ => .ok ()⟩
      ⟨.set, ⟨"other", "example.org", ""⟩, []⟩).sent ≠ [.badRequest] := by
  refine ⟨rfl, rfl, by decide⟩

/-- C6 (amended): for a register-namespace IQ set that passes the handler's
destination check, on an unauthenticated stream with the registered latch
unset, the claimed reply table holds: bad-request on a missing or empty
username or password, internal-server-error on a UserExists or
InsertOrUpdateUser failure, conflict on an existing user, and otherwise an
InsertOrUpdateUser call with the submitted fields, a result reply and the
latch set; any later valid-destination IQ set with the latch set is answered
not-acceptable. -/
theorem c6_amended (st : RegStorage) (x : XEPRegister) (iq : IQ)
    (hauth : x.stm.authenticated = false) (hreg : x.registered = false)
    (hset : iq.type = .set) (hto : x.isValidToJid iq.toJID = true) :
    ((childEl iq.query "username" = none ∨ childEl iq.query "password" = none) →
      x.ProcessIQ st iq = ⟨[.badRequest], [], x⟩) ∧
    (∀ ue pe, childEl iq.query "username" = some ue →
      childEl iq.query "password" = some pe →
      ((ue.text = "" ∨ pe.text = "") → x.ProcessIQ st iq = ⟨[.badRequest], [], x⟩) ∧
      (ue.text ≠ "" → pe.text ≠ "" →
        (∀ msg, st.userExists ue.text = .fail msg →
          x.ProcessIQ st iq = ⟨[.internalServerError], [.userExists ue.text], x⟩) ∧
        (st.userExists ue.text = .ok true →
          x.ProcessIQ st iq = ⟨[.conflict], [.userExists ue.text], x⟩) ∧
        (st.userExists ue.text = .ok false →
          (∀ msg, st.insertOrUpdateUser ue.text pe.text = .fail msg →
            x.ProcessIQ st iq =
              ⟨[.internalServerError],
               [.userExists ue.text, .insertOrUpdateUser ue.text pe.text], x⟩) ∧
          (st.insertOrUpdateUser ue.text pe.text = .ok () →
            x.ProcessIQ st iq =
              ⟨[.resultIQ], [.userExists ue.text, .insertOrUpdateUser ue.text pe.text],
               { x with registered := true }⟩)))) ∧
    (∀ st2 x2 iq2, x2.registered = true → (x2 : XEPRegister).stm.authenticated = false →
      (iq2 : IQ).type = .set → x2.isValidToJid iq2.toJID = true →
      x2.ProcessIQ st2 iq2 = ⟨[.notAcceptable], [], x2⟩) := by
  have hd := processIQ_unauth_set_fresh st x iq hauth hreg hset hto
  refine ⟨?_, ?_, ?_⟩
  · intro h
    rw [hd]
    unfold XEPRegister.registerNewUser
    rcases h with h | h <;> rcases hu : childEl iq.query "username" with _ | ue <;>
      rcases hp : childEl iq.query "password" with _ | pe <;> simp_all
  · intro ue pe hu hp
    constructor
    · intro h
      rw [hd]
      unfold XEPRegister.registerNewUser
      have he : String.isEmpty "" = true := rfl
      rcases h with h | h <;> simp [hu, hp, h, he]
    · intro hne hpe
      have hue : ue.text.isEmpty = false := by
        rcases h : ue.text.isEmpty with _ | _
        · rfl
        · exact absurd ((String.isEmpty_iff ue.text).mp h) hne
      have hpe2 : pe.text.isEmpty = false := by
        rcases h : pe.text.isEmpty with _ | _
        · rfl
        · exact absurd ((String.isEmpty_iff pe.text).mp h) hpe
      refine ⟨?_, ?_, ?_⟩
      · intro msg hmsg
        rw [hd]
        unfold XEPRegister.registerNewUser
        simp [hu, hp, hue, hpe2, hmsg]
      · intro hex
        rw [hd]
        unfold XEPRegister.registerNewUser
        simp [hu, hp, hue, hpe2, hex]
      · intro hex
        constructor
        · intro msg hmsg
          rw [hd]
          unfold XEPRegister.registerNewUser
          simp [hu, hp, hue, hpe2, hex, hmsg]
        · intro hok
          rw [hd]
          unfold XEPRegister.registerNewUser
          simp [hu, hp, hue, hpe2, hex, hok]
  · intro st2 x2 iq2 hr2 ha2 ht2 hv2
    unfold XEPRegister.ProcessIQ
    simp [hv2, ha2, ht2, hr2, IQ.IsSet, IQ.IsGet]

/-- C6 witness: the registration happy path on a server-addressed set IQ
inserts the submitted user, replies result and latches. -/
theorem c6_witness :
    ((XEPRegister.mk ⟨true, true, true⟩
        ⟨"id1", "", "example.org", "", none, false, false⟩ false).ProcessIQ
      ⟨fun _ => .ok false, fun _ _ => .ok (), fun _ => .ok none, fun _ => .ok ()⟩
      ⟨.set, ⟨"", "example.org", ""⟩,
       [⟨"username", "alice"⟩, ⟨"password", "s3cret"⟩]⟩) =
    ⟨[.resultIQ], [.userExists "alice", .insertOrUpdateUser "alice" "s3cret"],
     ⟨⟨true, true, true⟩, ⟨"id1", "", "example.org", "", none, false, false⟩, true⟩⟩ :=
  ((((c6_amended
      ⟨fun _ => .ok false, fun _ _ => .ok (), fun _ => .ok none, fun _ => .ok ()⟩
      ⟨⟨true, true, true⟩, ⟨"id1", "", "example.org", "", none, false, false⟩, false⟩
      ⟨.set, ⟨"", "example.org", ""⟩,
       [⟨"username", "alice"⟩, ⟨"password", "s3cret"⟩]⟩
      rfl rfl rfl rfl).2.1
      ⟨"username", "alice"⟩ ⟨"password", "s3cret"⟩ rfl rfl).2
      (by decide) (by decide)).2.2 rfl).2 rfl

/-- IsBlockedJID only ever touches the blockLists cache: domains, stms and
authedStms are returned unchanged. -/
theorem isBlockedJID_mgr_fields (m : Manager) (st : Storage) (j : JID) (u : String) :
    ((m.IsBlockedJID st j u).2).domains = m.domains ∧
    ((m.IsBlockedJID st j u).2).authedStms = m.authedStms ∧
    ((m.IsBlockedJID st j u).2).stms = m.stms := by
  unfold Manager.IsBlockedJID Manager.getBlockList
  rcases h : mapLookup u m.blockLists with _ | bl
  · cases h2 : st.fetchBlockListItems u <;> simp [h, h2]
  · simp [h]

/-- StreamsMatchingJID depends only on the domains and the authedStms map. -/
theorem streamsMatchingJID_congr (m1 m2 : Manager) (hdm : m1.domains = m2.domains)
    (ham : m1.authedStms = m2.authedStms) (j : JID) :
    m1.StreamsMatchingJID j = m2.StreamsMatchingJID j := by
  unfold Manager.StreamsMatchingJID Manager.IsLocalDomain
  rw [hdm, ham]

/-- C2 counterexample: a stanza to a local bare JID with no recipients whose
sender is on the destination's block list makes route return ErrBlockedJID,
not one of the three storage-derived results the claim enumerates. -/
theorem c2_counterexample :
    Manager.IsLocalDomain
      ⟨["example.org"], [], [], [("alice", [⟨"bob", "example.org", ""⟩])]⟩
      "example.org" = true ∧
    Manager.StreamsMatchingJID
      ⟨["example.org"], [], [], [("alice", [⟨"bob", "example.org", ""⟩])]⟩
      ⟨"alice", "example.org", ""⟩ = [] ∧
    (Storage.userExists ⟨fun _ => .ok true, fun _ => .ok []⟩ "alice" = .ok true) ∧
    (Manager.route ⟨["example.org"], [], [], [("alice", [⟨"bob", "example.org", ""⟩])]⟩
      ⟨fun _ => .ok true, fun _ => .ok []⟩
      ⟨.message, ⟨"bob", "example.org", "x"⟩, ⟨"alice", "example.org", ""⟩⟩
      false).result = some .blockedJID ∧
    (Manager.route ⟨["example.org"], [], [], [("alice", [⟨"bob", "example.org", ""⟩])]⟩
      ⟨fun _ => .ok true, fun _ => .ok []⟩
      ⟨.message, ⟨"bob", "example.org", "x"⟩, ⟨"alice", "example.org", ""⟩⟩
      false).result ≠ some .notAuthenticated := by
  refine ⟨rfl, rfl, rfl, rfl, by decide⟩

/-- C2 (amended): for a stanza to a local-domain JID on which the block-list
check does not reject (blocking ignored, server-addressed destination, or
sender not blocked) and whose bare destination matches no recipient stream,
route sends nothing and returns the storage error when UserExists fails,
ErrNotAuthenticated when the user exists, and ErrNotExistingAccount when it
does not. -/
theorem c2_amended (st : Storage) (m : Manager) (elem : Stanza) (ib : Bool)
    (hl : m.IsLocalDomain elem.toJID.domain = true)
    (hb : ib = true ∨ elem.toJID.IsServer = true ∨
          (m.IsBlockedJID st elem.fromJID elem.toJID.node).1 = false)
    (hr : m.StreamsMatchingJID elem.toJID.ToBareJID = []) :
    (m.route st elem ib).sends = [] ∧
    (∀ msg, st.userExists elem.toJID.node = .fail msg →
      (m.route st elem ib).result = some (.storageErr msg)) ∧
    (st.userExists elem.toJID.node = .ok true →
      (m.route st elem ib).result = some .notAuthenticated) ∧
    (st.userExists elem.toJID.node = .ok false →
      (m.route st elem ib).result = some .notExistingAccount) := by
  have hfields := isBlockedJID_mgr_fields m st elem.fromJID elem.toJID.node
  have hr2 : ((m.IsBlockedJID st elem.fromJID elem.toJID.node).2).StreamsMatchingJID
      elem.toJID.ToBareJID = [] := by
    rw [streamsMatchingJID_congr _ m hfields.1 hfields.2.1]
    exact hr
  have hshape : (m.route st elem ib).sends = [] ∧
      (m.route st elem ib).result =
        (match st.userExists elem.toJID.node with
         | .fail e => some (.storageErr e)
         | .ok true => some .notAuthenticated
         | .ok false => some .notExistingAccount) := by
    unfold Manager.route
    rcases hb with hb | hb | hb
    · subst hb
      rcases hx : st.userExists elem.toJID.node with b | msg
      · cases b <;> simp [hl, hr, hx]
      · simp [hl, hr, hx]
    · rcases hx : st.userExists elem.toJID.node with b | msg
      · cases b <;> simp [hl, hb, hr, hx]
      · simp [hl, hb, hr, hx]
    · cases hc : (!ib && !elem.toJID.IsServer)
      · rcases hx : st.userExists elem.toJID.node with b | msg
        · cases b <;> simp [hl, hc, hr, hx]
        · simp [hl, hc, hr, hx]
      · rcases hx : st.userExists elem.toJID.node with b | msg
        · cases b <;> simp [hl, hc, hb, hr2, hx]
        · simp [hl, hc, hb, hr2, hx]
  refine ⟨hshape.1, ?_, ?_, ?_⟩
  · intro msg hmsg
    rw [hshape.2, hmsg]
  · intro hx
    rw [hshape.2, hx]
  · intro hx
    rw [hshape.2, hx]

/-- C2 witness: routing to an offline existing user on a fresh manager
returns ErrNotAuthenticated. -/
theorem c2_witness :
    (Manager.route (initManager ["example.org"]) ⟨fun _ => .ok true, fun _ => .ok []⟩
      ⟨.message, ⟨"bob", "example.org", "pc"⟩, ⟨"alice", "example.org", ""⟩⟩
      false).result = some .notAuthenticated :=
  (c2_amended ⟨fun _ => .ok true, fun _ => .ok []⟩ (initManager ["example.org"])
      ⟨.message, ⟨"bob", "example.org", "pc"⟩, ⟨"alice", "example.org", ""⟩⟩
      false (by decide) (Or.inr (Or.inr (by decide))) (by decide)).2.2.1 rfl

/-- In any configuration where the block check cannot fire (blocking
ignored, server destination, or sender not blocked), route never returns
ErrBlockedJID. -/
theorem route_not_blocked_cfg (m : Manager) (st : Storage) (e : Stanza) (ib : Bool)
    (h : ib = true ∨ e.toJID.IsServer = true ∨
         (m.IsBlockedJID st e.fromJID e.toJID.node).1 = false) :
    (m.route st e ib).result ≠ some .blockedJID := by
  unfold Manager.route
  by_cases hld : m.IsLocalDomain e.toJID.domain
  case neg => simp [hld]
  case pos =>
    cases hc : (!ib && !e.toJID.IsServer) with
    | false =>
      simp [hld, hc]
      repeat' split
      all_goals simp
    | true =>
      have hnb : (m.IsBlockedJID st e.fromJID e.toJID.node).1 = false := by
        rcases h with h | h | h
        · rw [h] at hc; simp at hc
        · rw [h] at hc; simp at hc
        · exact h
      simp [hld, hc, hnb]
      repeat' split
      all_goals simp

/-- C5: when a non-server local destination's block list matches the sender,
Route sends nothing and returns ErrBlockedJID (whatever the destination
shape and recipient set), while MustRoute on the same stanza ignores the
block list and delivers: with at least one recipient for the bare
destination it sends to at least one stream when the destination is not
full-with-user, and to exactly the resource-matching stream when it is;
MustRoute never returns ErrBlockedJID, and neither does Route for a
server-addressed destination. -/
theorem c5_blocked_vs_mustroute (st : Storage) (m : Manager) (elem : Stanza)
    (hl : m.IsLocalDomain elem.toJID.domain = true)
    (hns : elem.toJID.IsServer = false)
    (hblk : (m.IsBlockedJID st elem.fromJID elem.toJID.node).1 = true) :
    (m.Route st elem).sends = [] ∧
    (m.Route st elem).result = some .blockedJID ∧
    (∀ hd tl, m.StreamsMatchingJID elem.toJID.ToBareJID = hd :: tl →
      (elem.toJID.IsFullWithUser = false → (m.MustRoute st elem).sends ≠ []) ∧
      (elem.toJID.IsFullWithUser = true →
        ∀ stm, (hd :: tl).find? (fun r => r.resource == elem.toJID.resource) = some stm →
          (m.MustRoute st elem).sends = [stm])) ∧
    (∀ st2 m2 e2, (Manager.MustRoute m2 st2 e2).result ≠ some .blockedJID) ∧
    (∀ st2 m2 e2, (e2 : Stanza).toJID.IsServer = true →
      (Manager.Route m2 st2 e2).result ≠ some .blockedJID) := by
  refine ⟨?_, ?_, ?_, ?_, ?_⟩
  · unfold Manager.Route Manager.route
    simp [hl, hns, hblk]
  · unfold Manager.Route Manager.route
    simp [hl, hns, hblk]
  · intro hd tl hr
    constructor
    · intro hfwu
      unfold Manager.MustRoute Manager.route
      cases hk : elem.kind <;> simp [hl, hr, hfwu, hk]
    · intro hfwu stm hfind
      unfold Manager.MustRoute Manager.route
      simp [hl, hr, hfwu, hfind]
  · intro st2 m2 e2
    exact route_not_blocked_cfg m2 st2 e2 true (Or.inl rfl)
  · intro st2 m2 e2 h
    exact route_not_blocked_cfg m2 st2 e2 false (Or.inr (Or.inl h))

/-- C5 witness: the spec's block-list scenario, with one bound recipient:
the bare-destination Route is refused with ErrBlockedJID and MustRoute
delivers; the full-with-user destination is likewise refused by Route and
MustRoute delivers to exactly the resource-matching stream. -/
theorem c5_witness :
    (Manager.Route
      ⟨["example.org"],
       [("id1", ⟨"id1", "alice", "example.org", "r", none, false, true⟩)],
       [("alice", [⟨"id1", "alice", "example.org", "r", none, false, true⟩])],
       [("alice", [⟨"bob", "example.org", ""⟩])]⟩
      ⟨fun _ => .ok true, fun _ => .ok []⟩
      ⟨.message, ⟨"bob", "example.org", "x"⟩, ⟨"alice", "example.org", ""⟩⟩).result =
        some .blockedJID ∧
    (Manager.MustRoute
      ⟨["example.org"],
       [("id1", ⟨"id1", "alice", "example.org", "r", none, false, true⟩)],
       [("alice", [⟨"id1", "alice", "example.org", "r", none, false, true⟩])],
       [("alice", [⟨"bob", "example.org", ""⟩])]⟩
      ⟨fun _ => .ok true, fun _ => .ok []⟩
      ⟨.message, ⟨"bob", "example.org", "x"⟩, ⟨"alice", "example.org", ""⟩⟩).sends ≠ [] ∧
    (Manager.Route
      ⟨["example.org"],
       [("id1", ⟨"id1", "alice", "example.org", "r", none, false, true⟩)],
       [("alice", [⟨"id1", "alice", "example.org", "r", none, false, true⟩])],
       [("alice", [⟨"bob", "example.org", ""⟩])]⟩
      ⟨fun _ => .ok true, fun _ => .ok []⟩
      ⟨.message, ⟨"bob", "example.org", "x"⟩, ⟨"alice", "example.org", "r"⟩⟩).result =
        some .blockedJID ∧
    (Manager.MustRoute
      ⟨["example.org"],
       [("id1", ⟨"id1", "alice", "example.org", "r", none, false, true⟩)],
       [("alice", [⟨"id1", "alice", "example.org", "r", none, false, true⟩])],
       [("alice", [⟨"bob", "example.org", ""⟩])]⟩
      ⟨fun _ => .ok true, fun _ => .ok []⟩
      ⟨.message, ⟨"bob", "example.org", "x"⟩, ⟨"alice", "example.org", "r"⟩⟩).sends =
      [⟨"id1", "alice", "example.org", "r", none, false, true⟩] :=
  ⟨(c5_blocked_vs_mustroute
      ⟨fun _ => .ok true, fun _ => .ok []⟩
      ⟨["example.org"],
       [("id1", ⟨"id1", "alice", "example.org", "r", none, false, true⟩)],
       [("alice", [⟨"id1", "alice", "example.org", "r", none, false, true⟩])],
       [("alice", [⟨"bob", "example.org", ""⟩])]⟩
      ⟨.message, ⟨"bob", "example.org", "x"⟩, ⟨"alice", "example.org", ""⟩⟩
      (by decide) (by decide) (by decide)).2.1,
   ((c5_blocked_vs_mustroute
      ⟨fun _ => .ok true, fun _ => .ok []⟩
      ⟨["example.org"],
       [("id1", ⟨"id1", "alice", "example.org", "r", none, false, true⟩)],
       [("alice", [⟨"id1", "alice", "example.org", "r", none, false, true⟩])],
       [("alice", [⟨"bob", "example.org", ""⟩])]⟩
      ⟨.message, ⟨"bob", "example.org", "x"⟩, ⟨"alice", "example.org", ""⟩⟩
      (by decide) (by decide) (by decide)).2.2.1
      ⟨"id1", "alice", "example.org", "r", none, false, true⟩ []
      (by decide)).1 (by decide),
   (c5_blocked_vs_mustroute
      ⟨fun _ => .ok true, fun _ => .ok []⟩
      ⟨["example.org"],
       [("id1", ⟨"id1", "alice", "example.org", "r", none, false, true⟩)],
       [("alice", [⟨"id1", "alice", "example.org", "r", none, false, true⟩])],
       [("alice", [⟨"bob", "example.org", ""⟩])]⟩
      ⟨.message, ⟨"bob", "example.org", "x"⟩, ⟨"alice", "example.org", "r"⟩⟩
      (by decide) (by decide) (by decide)).2.1,
   ((c5_blocked_vs_mustroute
      ⟨fun _ => .ok true, fun _ => .ok []⟩
      ⟨["example.org"],
       [("id1", ⟨"id1", "alice", "example.org", "r", none, false, true⟩)],
       [("alice", [⟨"id1", "alice", "example.org", "r", none, false, true⟩])],
       [("alice", [⟨"bob", "example.org", ""⟩])]⟩
      ⟨.message, ⟨"bob", "example.org", "x"⟩, ⟨"alice", "example.org", "r"⟩⟩
      (by decide) (by decide) (by decide)).2.2.1
      ⟨"id1", "alice", "example.org", "r", none, false, true⟩ []
      (by decide)).2 (by decide)
      ⟨"id1", "alice", "example.org", "r", none, false, true⟩ (by decide)⟩

/-- The seed of a max fold bounds the fold from below. -/
theorem init_le_foldl_max (l : List Int) (a : Int) : a ≤ l.foldl max a := by
  induction l generalizing a with
  | nil => exact le_refl a
  | cons v t ih => exact le_trans (le_max_left a v) (ih (max a v))

/-- A max fold returns its seed or an element of the list. -/
theorem foldl_max_eq_or_mem (l : List Int) (a : Int) :
    l.foldl max a = a ∨ l.foldl max a ∈ l := by
  induction l generalizing a with
  | nil => exact Or.inl rfl
  | cons v t ih =>
    rw [List.foldl_cons]
    rcases ih (max a v) with h | h
    · rcases max_choice a v with h2 | h2
      · exact Or.inl (h.trans h2)
      · exact Or.inr (by rw [h, h2]; exact List.mem_cons_self v t)
    · exact Or.inr (List.mem_cons_of_mem v h)

/-- find? succeeds when some member satisfies the predicate. -/
theorem find?_isSome_of_mem {α : Type} (p : α → Bool) (l : List α) (x : α)
    (hx : x ∈ l) (hp : p x = true) : ∃ y, l.find? p = some y := by
  induction l with
  | nil => cases hx
  | cons h t ih =>
    by_cases hph : p h = true
    · exact ⟨h, List.find?_cons_of_pos t hph⟩
    · rw [List.find?_cons_of_neg t hph]
      rcases List.mem_cons.mp hx with rfl | hx2
      · exact absurd hp hph
      · exact ih hx2

/-- The source's selection loop picks exactly the recipient the amended rule
names: the first candidate attaining the greatest candidate priority. -/
theorem selectHighest_eq_specSelect (tl : List StreamRec) :
    ∀ hd : StreamRec, selectHighest hd tl = specSelect hd tl := by
  induction tl with
  | nil =>
    intro hd
    unfold selectHighest selectLoop specSelect candMax
    simp
  | cons r rest ih =>
    intro hd
    rcases hp : r.presence with _ | p
    · have hf : r.presence.map Presence.priority = none := by rw [hp]; rfl
      have hM : candMax hd (r :: rest) = candMax hd rest := by
        unfold candMax
        simp only [List.filterMap_cons, hf]
      have hL : selectHighest hd (r :: rest) = selectHighest hd rest := by
        simp only [selectHighest, selectLoop, hp]
      have hR : specSelect hd (r :: rest) = specSelect hd rest := by
        unfold specSelect
        rw [hM, List.find?_cons_of_neg rest (by simp [hf])]
      rw [hL, ih hd, hR]
    · have hf : r.presence.map Presence.priority = some p.priority := by rw [hp]; rfl
      have her : effPrio r = p.priority := by unfold effPrio; rw [hp]
      by_cases hlt : effPrio hd < p.priority
      · -- the loop replaces the current best with r
        have hL : selectHighest hd (r :: rest) = selectHighest r rest := by
          simp only [selectHighest, selectLoop, hp]
          rw [if_pos hlt, her]
        have hM : candMax hd (r :: rest) = candMax r rest := by
          unfold candMax
          simp only [List.filterMap_cons, hf, List.foldl_cons]
          rw [her, max_eq_right (le_of_lt hlt)]
        have hple : p.priority ≤ candMax r rest := by
          unfold candMax
          rw [her]
          exact init_le_foldl_max _ _
        have hlt2 : effPrio hd < candMax r rest := lt_of_lt_of_le hlt hple
        have hR : specSelect hd (r :: rest) = specSelect r rest := by
          unfold specSelect
          rw [hM, if_neg (ne_of_lt hlt2)]
          by_cases hpm : p.priority = candMax r rest
          · rw [List.find?_cons_of_pos rest (by simp [hf, hpm]),
              if_pos (her.trans hpm)]
            rfl
          · rw [List.find?_cons_of_neg rest (by simp [hf]; exact hpm),
              if_neg (by rw [her]; exact hpm)]
            have hmem : candMax r rest ∈
                rest.filterMap (fun x => x.presence.map Presence.priority) := by
              have hsplit := foldl_max_eq_or_mem
                (rest.filterMap (fun x => x.presence.map Presence.priority)) p.priority
              have hcand : candMax r rest =
                  (rest.filterMap (fun x => x.presence.map Presence.priority)).foldl max
                    p.priority := by
                unfold candMax
                rw [her]
              rcases hsplit with h | h
              · exact absurd (hcand.trans h).symm hpm
              · rw [hcand]; exact h
            rcases List.mem_filterMap.mp hmem with ⟨x, hxmem, hfx⟩
            rcases find?_isSome_of_mem
                (fun y => decide (y.presence.map Presence.priority = some (candMax r rest)))
                rest x hxmem (by simp [hfx]) with ⟨y, hy⟩
            rw [hy]
            rfl
        rw [hL, ih r, hR]
      · -- the loop keeps hd as the current best
        have hle : p.priority ≤ effPrio hd := le_of_not_lt hlt
        have hL : selectHighest hd (r :: rest) = selectHighest hd rest := by
          simp only [selectHighest, selectLoop, hp]
          rw [if_neg hlt]
        have hM : candMax hd (r :: rest) = candMax hd rest := by
          unfold candMax
          simp only [List.filterMap_cons, hf, List.foldl_cons]
          rw [max_eq_left hle]
        have hR : specSelect hd (r :: rest) = specSelect hd rest := by
          by_cases he : effPrio hd = candMax hd rest
          · unfold specSelect
            rw [hM, if_pos he, if_pos he]
          · have hle2 : effPrio hd ≤ candMax hd rest := by
              unfold candMax
              exact init_le_foldl_max _ _
            have hlt2 : p.priority < candMax hd rest :=
              lt_of_le_of_lt hle (lt_of_le_of_ne hle2 he)
            unfold specSelect
            rw [hM, if_neg he, if_neg he,
              List.find?_cons_of_neg rest (by simp [hf]; exact ne_of_lt hlt2)]
        rw [hL, ih hd, hR]

/-- The selected recipient is one of the recipients. -/
theorem specSelect_mem (hd : StreamRec) (tl : List StreamRec) :
    specSelect hd tl ∈ hd :: tl := by
  unfold specSelect
  split
  · exact List.mem_cons_self _ _
  · rcases hfind : tl.find?
        (fun r => decide (r.presence.map Presence.priority = some (candMax hd tl))) with _ | y
    · rw [hfind]
      exact List.mem_cons_self _ _
    · rw [hfind]
      exact List.mem_cons_of_mem _ (List.mem_of_find?_eq_some hfind)

/-- C1 counterexample: with recipients of priority -1 and nil presence, the
message goes to the priority -1 stream although the claim's maximum
effective priority (nil counting as 0) is 0: a nil-presence recipient after
the first is never selected. -/
theorem c1_counterexample :
    Manager.StreamsMatchingJID
      ⟨["example.org"],
       [("id1", ⟨"id1", "alice", "example.org", "a", some ⟨-1⟩, false, true⟩),
        ("id2", ⟨"id2", "alice", "example.org", "b", none, false, true⟩)],
       [("alice", [⟨"id1", "alice", "example.org", "a", some ⟨-1⟩, false, true⟩,
                   ⟨"id2", "alice", "example.org", "b", none, false, true⟩])],
       [("alice", [])]⟩
      ⟨"alice", "example.org", ""⟩ =
      [⟨"id1", "alice", "example.org", "a", some ⟨-1⟩, false, true⟩,
       ⟨"id2", "alice", "example.org", "b", none, false, true⟩] ∧
    (Manager.Route
      ⟨["example.org"],
       [("id1", ⟨"id1", "alice", "example.org", "a", some ⟨-1⟩, false, true⟩),
        ("id2", ⟨"id2", "alice", "example.org", "b", none, false, true⟩)],
       [("alice", [⟨"id1", "alice", "example.org", "a", some ⟨-1⟩, false, true⟩,
                   ⟨"id2", "alice", "example.org", "b", none, false, true⟩])],
       [("alice", [])]⟩
      ⟨fun _ => .ok true, fun _ => .ok []⟩
      ⟨.message, ⟨"bob", "example.org", "x"⟩, ⟨"alice", "example.org", ""⟩⟩).sends =
      [⟨"id1", "alice", "example.org", "a", some ⟨-1⟩, false, true⟩] ∧
    effPrio ⟨"id1", "alice", "example.org", "a", some ⟨-1⟩, false, true⟩ <
      claimMaxEff ⟨"id1", "alice", "example.org", "a", some ⟨-1⟩, false, true⟩
        [⟨"id2", "alice", "example.org", "b", none, false, true⟩] := by
  refine ⟨rfl, rfl, by decide⟩

/-- C1 (amended): a message to a bare local JID with at least one recipient
and an unblocked sender is delivered by exactly one SendElement call, to the
first recipient attaining the greatest candidate priority, where the first
recipient is always a candidate at its effective priority (nil presence
counting as 0) and a later recipient is a candidate, at its presence
priority, only when its presence is non-nil. -/
theorem c1_amended (st : Storage) (m : Manager) (elem : Stanza)
    (hd : StreamRec) (tl : List StreamRec)
    (hk : elem.kind = .message)
    (hl : m.IsLocalDomain elem.toJID.domain = true)
    (hbare : elem.toJID.IsBare = true)
    (hnb : (m.IsBlockedJID st elem.fromJID elem.toJID.node).1 = false)
    (hr : m.StreamsMatchingJID elem.toJID.ToBareJID = hd :: tl) :
    (m.Route st elem).sends = [specSelect hd tl] ∧
    (m.Route st elem).result = none ∧
    specSelect hd tl ∈ hd :: tl := by
  have hbare2 := Bool.and_eq_true _ _ |>.mp (by unfold JID.IsBare at hbare; exact hbare)
  have hns : elem.toJID.IsServer = false := by
    unfold JID.IsServer
    rcases hbare2 with ⟨h1, _⟩
    simp at h1
    simp [h1]
  have hfwu : elem.toJID.IsFullWithUser = false := by
    unfold JID.IsFullWithUser
    rcases hbare2 with ⟨_, h2⟩
    simp [h2]
  have hfields := isBlockedJID_mgr_fields m st elem.fromJID elem.toJID.node
  have hr2 : ((m.IsBlockedJID st elem.fromJID elem.toJID.node).2).StreamsMatchingJID
      elem.toJID.ToBareJID = hd :: tl := by
    rw [streamsMatchingJID_congr _ m hfields.1 hfields.2.1]
    exact hr
  refine ⟨?_, ?_, specSelect_mem hd tl⟩
  · unfold Manager.Route Manager.route
    simp [hl, hns, hnb, hr2, hfwu, hk, selectHighest_eq_specSelect]
  · unfold Manager.Route Manager.route
    simp [hl, hns, hnb, hr2, hfwu, hk]

/-- C1 witness: the spec's priority scenario, resources phone (priority 1)
and laptop (priority 5): the message is delivered once, to laptop. -/
theorem c1_witness :
    Manager.StreamsMatchingJID
      ⟨["example.org"],
       [("id1", ⟨"id1", "alice", "example.org", "phone", some ⟨1⟩, false, true⟩),
        ("id2", ⟨"id2", "alice", "example.org", "laptop", some ⟨5⟩, false, true⟩)],
       [("alice", [⟨"id1", "alice", "example.org", "phone", some ⟨1⟩, false, true⟩,
                   ⟨"id2", "alice", "example.org", "laptop", some ⟨5⟩, false, true⟩])],
       [("alice", [])]⟩
      ⟨"alice", "example.org", ""⟩ =
      [⟨"id1", "alice", "example.org", "phone", some ⟨1⟩, false, true⟩,
       ⟨"id2", "alice", "example.org", "laptop", some ⟨5⟩, false, true⟩] ∧
    (Manager.Route
      ⟨["example.org"],
       [("id1", ⟨"id1", "alice", "example.org", "phone", some ⟨1⟩, false, true⟩),
        ("id2", ⟨"id2", "alice", "example.org", "laptop", some ⟨5⟩, false, true⟩)],
       [("alice", [⟨"id1", "alice", "example.org", "phone", some ⟨1⟩, false, true⟩,
                   ⟨"id2", "alice", "example.org", "laptop", some ⟨5⟩, false, true⟩])],
       [("alice", [])]⟩
      ⟨fun _ => .ok true, fun _ => .ok []⟩
      ⟨.message, ⟨"bob", "example.org", "x"⟩, ⟨"alice", "example.org", ""⟩⟩).sends =
      [⟨"id2", "alice", "example.org", "laptop", some ⟨5⟩, false, true⟩] :=
  ⟨by decide,
   Eq.trans
     (c1_amended
        ⟨fun _ => .ok true, fun _ => .ok []⟩
        ⟨["example.org"],
         [("id1", ⟨"id1", "alice", "example.org", "phone", some ⟨1⟩, false, true⟩),
          ("id2", ⟨"id2", "alice", "example.org", "laptop", some ⟨5⟩, false, true⟩)],
         [("alice", [⟨"id1", "alice", "example.org", "phone", some ⟨1⟩, false, true⟩,
                     ⟨"id2", "alice", "example.org", "laptop", some ⟨5⟩, false, true⟩])],
         [("alice", [])]⟩
        ⟨.message, ⟨"bob", "example.org", "x"⟩, ⟨"alice", "example.org", ""⟩⟩
        ⟨"id1", "alice", "example.org", "phone", some ⟨1⟩, false, true⟩
        [⟨"id2", "alice", "example.org", "laptop", some ⟨5⟩, false, true⟩]
        rfl (by decide) (by decide) (by decide) (by decide)).1
     (by decide)⟩

/-! ### Association-list lemmas -/

theorem mapLookup_mem {α : Type} (k : String) (v : α) (l : List (String × α))
    (h : mapLookup k l = some v) : (k, v) ∈ l := by
  induction l with
  | nil => cases h
  | cons p rest ih =>
    obtain ⟨a, b⟩ := p
    simp only [mapLookup] at h
    by_cases hk : a = k
    · subst hk
      rw [if_pos (by simp)] at h
      have hb : b = v := Option.some.inj h
      subst hb
      exact List.mem_cons_self _ _
    · rw [if_neg (by simp [hk])] at h
      exact List.mem_cons_of_mem _ (ih h)

theorem mapLookup_isSome_of_mem {α : Type} (k : String) (p : String × α)
    (l : List (String × α)) (hmem : p ∈ l) (hk : p.1 = k) :
    mapLookup k l ≠ none := by
  induction l with
  | nil => cases hmem
  | cons q rest ih =>
    simp only [mapLookup]
    by_cases hq : (q.1 == k) = true
    · rw [if_pos hq]; simp
    · rw [if_neg hq]
      rcases List.mem_cons.mp hmem with rfl | h2
      · exact absurd (by simp [hk]) hq
      · exact ih h2

theorem mapLookup_mapInsert_self {α : Type} (k : String) (v : α) (l : List (String × α)) :
    mapLookup k (mapInsert k v l) = some v := by
  induction l with
  | nil => simp [mapInsert, mapLookup]
  | cons p rest ih =>
    simp only [mapInsert]
    by_cases hp : (p.1 == k) = true
    · rw [if_pos hp]; simp [mapLookup]
    · rw [if_neg hp]
      simp only [mapLookup]
      rw [if_neg hp]
      exact ih

theorem mapLookup_mapInsert_ne {α : Type} (k k2 : String) (v : α) (l : List (String × α))
    (h : k2 ≠ k) : mapLookup k2 (mapInsert k v l) = mapLookup k2 l := by
  induction l with
  | nil => simp [mapInsert, mapLookup, Ne.symm h]
  | cons p rest ih =>
    simp only [mapInsert]
    by_cases hp : (p.1 == k) = true
    · rw [if_pos hp]
      have hpk : p.1 = k := eq_of_beq hp
      simp [mapLookup, Ne.symm h, hpk]
    · rw [if_neg hp]
      simp only [mapLookup]
      by_cases hp2 : (p.1 == k2) = true
      · rw [if_pos hp2, if_pos hp2]
      · rw [if_neg hp2, if_neg hp2]
        exact ih

theorem mem_mapErase {α : Type} (k : String) (p : String × α) (l : List (String × α))
    (h : p ∈ mapErase k l) : p ∈ l ∧ p.1 ≠ k := by
  unfold mapErase at h
  rcases List.mem_filter.mp h with ⟨h1, h2⟩
  refine ⟨h1, ?_⟩
  simpa using h2

theorem mapLookup_mapErase_self {α : Type} (k : String) (l : List (String × α)) :
    mapLookup k (mapErase k l) = none := by
  induction l with
  | nil => rfl
  | cons p rest ih =>
    show mapLookup k (List.filter (fun q => !(q.1 == k)) (p :: rest)) = none
    rw [List.filter_cons]
    by_cases hp : (p.1 == k) = true
    · simp only [hp, Bool.not_true, Bool.false_eq_true, if_false]
      exact ih
    · simp only [Bool.not_eq_true] at hp
      simp only [hp, Bool.not_false, if_true]
      simp only [mapLookup, hp, Bool.false_eq_true, if_false]
      exact ih

theorem mapLookup_mapErase_ne {α : Type} (k k2 : String) (l : List (String × α))
    (h : k2 ≠ k) : mapLookup k2 (mapErase k l) = mapLookup k2 l := by
  induction l with
  | nil => rfl
  | cons p rest ih =>
    show mapLookup k2 (List.filter (fun q => !(q.1 == k)) (p :: rest)) =
      mapLookup k2 (p :: rest)
    rw [List.filter_cons]
    by_cases hp : (p.1 == k) = true
    · have hpk : p.1 = k := eq_of_beq hp
      simp only [hp, Bool.not_true, Bool.false_eq_true, if_false]
      have ih2 : mapLookup k2 (List.filter (fun q => !(q.1 == k)) rest) =
          mapLookup k2 rest := ih
      rw [ih2]
      simp [mapLookup, hpk, Ne.symm h]
    · simp only [Bool.not_eq_true] at hp
      simp only [hp, Bool.not_false, if_true]
      simp only [mapLookup]
      by_cases hp2 : (p.1 == k2) = true
      · rw [if_pos hp2, if_pos hp2]
      · rw [if_neg hp2, if_neg hp2]
        exact ih

theorem mem_keys_mapInsert {α : Type} (a k : String) (v : α) (l : List (String × α))
    (h : a ∈ (mapInsert k v l).map Prod.fst) : a = k ∨ a ∈ l.map Prod.fst := by
  induction l with
  | nil =>
    simp [mapInsert] at h
    exact Or.inl h
  | cons p rest ih =>
    simp only [mapInsert] at h
    by_cases hp : (p.1 == k) = true
    · rw [if_pos hp] at h
      simp only [List.map_cons, List.mem_cons] at h
      rcases h with h | h
      · exact Or.inl h
      · exact Or.inr (by simp only [List.map_cons, List.mem_cons]; exact Or.inr h)
    · rw [if_neg hp] at h
      simp only [List.map_cons, List.mem_cons] at h
      rcases h with h | h
      · exact Or.inr (by simp only [List.map_cons, List.mem_cons]; exact Or.inl h)
      · rcases ih h with h2 | h2
        · exact Or.inl h2
        · exact Or.inr (by simp only [List.map_cons, List.mem_cons]; exact Or.inr h2)

theorem nodup_keys_mapInsert {α : Type} (k : String) (v : α) (l : List (String × α))
    (h : (l.map Prod.fst).Nodup) : ((mapInsert k v l).map Prod.fst).Nodup := by
  induction l with
  | nil => simp [mapInsert]
  | cons p rest ih =>
    simp only [List.map_cons, List.nodup_cons] at h
    obtain ⟨h1, h2⟩ := h
    simp only [mapInsert]
    by_cases hp : (p.1 == k) = true
    · rw [if_pos hp]
      simp only [List.map_cons, List.nodup_cons]
      refine ⟨?_, h2⟩
      rw [← eq_of_beq hp]
      exact h1
    · rw [if_neg hp]
      simp only [List.map_cons, List.nodup_cons]
      refine ⟨?_, ih h2⟩
      intro hmem
      rcases mem_keys_mapInsert p.1 k v rest hmem with h3 | h3
      · exact hp (by simp [h3])
      · exact h1 h3

theorem nodup_keys_mapErase {α : Type} (k : String) (l : List (String × α))
    (h : (l.map Prod.fst).Nodup) : ((mapErase k l).map Prod.fst).Nodup :=
  List.Nodup.sublist (List.Sublist.map Prod.fst (List.filter_sublist l)) h

theorem mem_mapInsert_nodup {α : Type} (k : String) (v : α) (p : String × α)
    (l : List (String × α)) (hnd : (l.map Prod.fst).Nodup)
    (h : p ∈ mapInsert k v l) : p = (k, v) ∨ (p ∈ l ∧ p.1 ≠ k) := by
  induction l with
  | nil =>
    simp [mapInsert] at h
    exact Or.inl h
  | cons q rest ih =>
    simp only [List.map_cons, List.nodup_cons] at hnd
    obtain ⟨hq1, hq2⟩ := hnd
    simp only [mapInsert] at h
    by_cases hq : (q.1 == k) = true
    · rw [if_pos hq] at h
      have hqk : q.1 = k := eq_of_beq hq
      rcases List.mem_cons.mp h with rfl | h2
      · exact Or.inl rfl
      · right
        refine ⟨List.mem_cons_of_mem _ h2, ?_⟩
        intro hpk
        have hmm2 : p.1 ∈ List.map Prod.fst rest := List.mem_map_of_mem Prod.fst h2
        rw [hpk, ← hqk] at hmm2
        exact hq1 hmm2
    · rw [if_neg hq] at h
      rcases List.mem_cons.mp h with rfl | h2
      · right
        refine ⟨List.mem_cons_self _ _, ?_⟩
        intro hpk
        exact hq (by simp [hpk])
      · rcases ih hq2 h2 with h3 | ⟨h3, h4⟩
        · exact Or.inl h3
        · exact Or.inr ⟨List.mem_cons_of_mem _ h3, h4⟩

theorem removeFirstByResource_sublist (res : String) (l : List StreamRec) :
    List.Sublist (removeFirstByResource res l) l := by
  induction l with
  | nil => simp [removeFirstByResource]
  | cons s rest ih =>
    simp only [removeFirstByResource]
    by_cases h : (res == s.resource) = true
    · rw [if_pos h]
      exact List.sublist_cons_self s rest
    · rw [if_neg h]
      exact List.Sublist.cons₂ s ih

theorem not_mem_removeFirstByResource (s : StreamRec) (l : List StreamRec)
    (hd : distinctResources l) : s ∉ removeFirstByResource s.resource l := by
  unfold distinctResources at hd
  induction l with
  | nil => simp [removeFirstByResource]
  | cons q rest ih =>
    rcases List.pairwise_cons.mp hd with ⟨hq, hrest⟩
    simp only [removeFirstByResource]
    by_cases h : (s.resource == q.resource) = true
    · rw [if_pos h]
      intro hmem
      exact (hq s hmem) (eq_of_beq h).symm
    · rw [if_neg h]
      intro hmem
      rcases List.mem_cons.mp hmem with rfl | h2
      · exact h (by simp)
      · exact ih hrest h2

/-! ### C3 -/

/-- C3 counterexample: two authed streams of one user sharing a resource
(reachable, since AuthenticateStream never rejects a duplicate): after
successfully unregistering the second, the first-match removal dropped the
other stream and the unregistered one is still in an authed list. -/
theorem c3_counterexample :
    (Manager.UnregisterStream
      ⟨["example.org"],
       [("id1", ⟨"id1", "alice", "example.org", "r", none, false, true⟩),
        ("id2", ⟨"id2", "alice", "example.org", "r", none, false, true⟩)],
       [("alice", [⟨"id1", "alice", "example.org", "r", none, false, true⟩,
                   ⟨"id2", "alice", "example.org", "r", none, false, true⟩])],
       []⟩
      ⟨"id2", "alice", "example.org", "r", none, false, true⟩).2 = none ∧
    ∃ p ∈ (Manager.UnregisterStream
      ⟨["example.org"],
       [("id1", ⟨"id1", "alice", "example.org", "r", none, false, true⟩),
        ("id2", ⟨"id2", "alice", "example.org", "r", none, false, true⟩)],
       [("alice", [⟨"id1", "alice", "example.org", "r", none, false, true⟩,
                   ⟨"id2", "alice", "example.org", "r", none, false, true⟩])],
       []⟩
      ⟨"id2", "alice", "example.org", "r", none, false, true⟩).1.authedStms,
      (⟨"id2", "alice", "example.org", "r", none, false, true⟩ : StreamRec) ∈ p.2 := by
  refine ⟨rfl, by decide⟩

/-- C3 (amended): UnregisterStream fails with the stream-not-found error
when the id is unknown; otherwise it succeeds, deletes the id from streams
and rewrites the authed map by removing the first same-resource entry of the
stream's username (deleting the key when the list empties); and under the
spec's registry invariants (streams keyed by their own id, authed lists
keyed by their elements' username, no two entries of one authed list sharing
a resource), the stream is afterwards absent from streams and from every
authed list. -/
theorem c3_amended (m : Manager) (s : StreamRec)
    (hn : (m.authedStms.map Prod.fst).Nodup)
    (ha : ∀ p ∈ m.authedStms, ∀ t ∈ p.2, t.username = p.1)
    (hdres : ∀ p ∈ m.authedStms, distinctResources p.2)
    (hid : ∀ p ∈ m.stms, p.1 = p.2.id) :
    (mapLookup s.id m.stms = none →
      (m.UnregisterStream s).2 = some ("stream not found: " ++ s.id)) ∧
    (∀ t, mapLookup s.id m.stms = some t →
      (m.UnregisterStream s).2 = none ∧
      mapLookup s.id (m.UnregisterStream s).1.stms = none ∧
      (m.UnregisterStream s).1.stms = mapErase s.id m.stms ∧
      ((m.UnregisterStream s).1.authedStms =
        match mapLookup s.username m.authedStms with
        | none => m.authedStms
        | some l =>
          if (removeFirstByResource s.resource l).isEmpty
          then mapErase s.username m.authedStms
          else mapInsert s.username (removeFirstByResource s.resource l) m.authedStms) ∧
      (∀ p ∈ (m.UnregisterStream s).1.stms, p.2 ≠ s) ∧
      (∀ p ∈ (m.UnregisterStream s).1.authedStms, s ∉ p.2)) := by
  constructor
  · intro h
    unfold Manager.UnregisterStream
    rw [h]
  · intro t ht
    have hsucc : m.UnregisterStream s =
        (Manager.mk m.domains (mapErase s.id m.stms)
          (match mapLookup s.username m.authedStms with
           | none => m.authedStms
           | some l =>
             if (removeFirstByResource s.resource l).isEmpty
             then mapErase s.username m.authedStms
             else mapInsert s.username (removeFirstByResource s.resource l) m.authedStms)
          m.blockLists,
         none) := by
      unfold Manager.UnregisterStream
      rw [ht]
    rw [hsucc]
    refine ⟨rfl, mapLookup_mapErase_self _ _, rfl, rfl, ?_, ?_⟩
    · intro p hp heq
      rcases mem_mapErase s.id p m.stms hp with ⟨h1, h2⟩
      exact h2 (by rw [hid p h1, heq])
    · rcases hlk : mapLookup s.username m.authedStms with _ | l


      · simp only [hlk]
        intro p hp hsp
        exact mapLookup_isSome_of_mem s.username p m.authedStms hp
          (ha p hp s hsp).symm hlk
      · simp only [hlk]
        by_cases hemp : (removeFirstByResource s.resource l).isEmpty = true
        · rw [if_pos hemp]
          intro p hp hsp
          rcases mem_mapErase s.username p m.authedStms hp with ⟨h1, h2⟩
          exact h2 (ha p h1 s hsp).symm
        · rw [if_neg hemp]
          intro p hp hsp
          rcases mem_mapInsert_nodup s.username (removeFirstByResource s.resource l)
              p m.authedStms hn hp with h2 | ⟨h2, h3⟩
          · have hml : (s.username, l) ∈ m.authedStms := mapLookup_mem _ _ _ hlk
            have hdl : distinctResources l := hdres _ hml
            rw [h2] at hsp
            exact not_mem_removeFirstByResource s l hdl hsp
          · exact h3 (ha p h2 s hsp).symm

/-- C3 witness: unregistering the only authed stream of a user removes it
from streams and from every authed list and deletes the username key. -/
theorem c3_witness :
    (Manager.UnregisterStream
      ⟨["example.org"],
       [("id1", ⟨"id1", "alice", "example.org", "r", none, false, true⟩)],
       [("alice", [⟨"id1", "alice", "example.org", "r", none, false, true⟩])],
       []⟩
      ⟨"id1", "alice", "example.org", "r", none, false, true⟩).2 = none ∧
    (∀ p ∈ (Manager.UnregisterStream
      ⟨["example.org"],
       [("id1", ⟨"id1", "alice", "example.org", "r", none, false, true⟩)],
       [("alice", [⟨"id1", "alice", "example.org", "r", none, false, true⟩])],
       []⟩
      ⟨"id1", "alice", "example.org", "r", none, false, true⟩).1.authedStms,
      (⟨"id1", "alice", "example.org", "r", none, false, true⟩ : StreamRec) ∉ p.2) :=
  ⟨((c3_amended
      ⟨["example.org"],
       [("id1", ⟨"id1", "alice", "example.org", "r", none, false, true⟩)],
       [("alice", [⟨"id1", "alice", "example.org", "r", none, false, true⟩])],
       []⟩
      ⟨"id1", "alice", "example.org", "r", none, false, true⟩
      (by decide) (by decide) (by decide) (by decide)).2
      ⟨"id1", "alice", "example.org", "r", none, false, true⟩ (by decide)).1,
   ((c3_amended
      ⟨["example.org"],
       [("id1", ⟨"id1", "alice", "example.org", "r", none, false, true⟩)],
       [("alice", [⟨"id1", "alice", "example.org", "r", none, false, true⟩])],
       []⟩
      ⟨"id1", "alice", "example.org", "r", none, false, true⟩
      (by decide) (by decide) (by decide) (by decide)).2
      ⟨"id1", "alice", "example.org", "r", none, false, true⟩ (by decide)).2.2.2.2.2⟩

/-! ### C8 -/

theorem managerInv_init (doms : List String) : managerInv (initManager doms) := by
  unfold managerInv authedInvariant initManager
  simp

theorem managerInv_register (m : Manager) (s : StreamRec) (h : managerInv m) :
    managerInv (m.RegisterStream s).1 := by
  obtain ⟨h1, h2, h3, h4⟩ := h
  cases hld : m.IsLocalDomain s.domain with
  | false =>
    have hstep : m.RegisterStream s = (m, some ("invalid domain: " ++ s.domain)) := by
      simp [Manager.RegisterStream, hld]
    rw [hstep]
    exact ⟨h1, h2, h3, h4⟩
  | true =>
    rcases hlk : mapLookup s.id m.stms with _ | v
    · have hstep : m.RegisterStream s =
          (Manager.mk m.domains (mapInsert s.id s m.stms) m.authedStms m.blockLists,
           none) := by
        simp [Manager.RegisterStream, hld, hlk]
      rw [hstep]
      refine ⟨?_, h2, h3, nodup_keys_mapInsert _ _ _ h4⟩
      intro p hp t htl
      obtain ⟨g1, g2, g3⟩ := h1 p hp t htl
      refine ⟨g1, g2, ?_⟩
      have hne : t.id ≠ s.id := by
        intro he
        rw [he] at g3
        rw [g3] at hlk
        cases hlk
      rw [mapLookup_mapInsert_ne s.id t.id s m.stms hne]
      exact g3
    · have hstep : m.RegisterStream s =
          (m, some ("stream already registered: " ++ s.id)) := by
        simp [Manager.RegisterStream, hld, hlk]
      rw [hstep]
      exact ⟨h1, h2, h3, h4⟩

theorem managerInv_authenticate (m : Manager) (s : StreamRec) (h : managerInv m)
    (hreg : mapLookup s.id m.stms = some s)
    (hfresh : ∀ p ∈ m.authedStms, p.1 = s.username → ∀ t ∈ p.2, t.resource ≠ s.resource) :
    managerInv (m.AuthenticateStream s).1 := by
  obtain ⟨h1, h2, h3, h4⟩ := h
  cases hres : s.resource.isEmpty with
  | true =>
    have hstep : m.AuthenticateStream s =
        (m, some ("resource not yet assigned: " ++ s.id)) := by
      simp [Manager.AuthenticateStream, hres]
    rw [hstep]
    exact ⟨h1, h2, h3, h4⟩
  | false =>
    have hstep : m.AuthenticateStream s =
        (Manager.mk m.domains m.stms
          (mapInsert s.username ((mapLookup s.username m.authedStms).getD [] ++ [s])
            m.authedStms) m.blockLists, none) := by
      simp [Manager.AuthenticateStream, hres]
    rw [hstep]
    have holdp : ∀ t ∈ (mapLookup s.username m.authedStms).getD [],
        t.username = s.username ∧ t.resource ≠ "" ∧ mapLookup t.id m.stms = some t := by
      intro t ht
      rcases hh : mapLookup s.username m.authedStms with _ | l
      · rw [hh] at ht
        simp at ht
      · rw [hh] at ht
        simp at ht
        exact h1 (s.username, l) (mapLookup_mem _ _ _ hh) t ht
    have holdres : ∀ t ∈ (mapLookup s.username m.authedStms).getD [],
        t.resource ≠ s.resource := by
      intro t ht
      rcases hh : mapLookup s.username m.authedStms with _ | l
      · rw [hh] at ht
        simp at ht
      · rw [hh] at ht
        simp at ht
        exact hfresh (s.username, l) (mapLookup_mem _ _ _ hh) rfl t ht
    have holddist : distinctResources ((mapLookup s.username m.authedStms).getD []) := by
      rcases hh : mapLookup s.username m.authedStms with _ | l
      · unfold distinctResources
        simp
      · exact h2 (s.username, l) (mapLookup_mem _ _ _ hh)
    have hsres : s.resource ≠ "" := by
      intro hre
      rw [hre] at hres
      exact absurd hres (by decide)
    refine ⟨?_, ?_, nodup_keys_mapInsert _ _ _ h3, h4⟩
    · intro p hp t htl
      rcases mem_mapInsert_nodup s.username _ p m.authedStms h3 hp with hpe | ⟨hpm, _⟩
      · subst hpe
        rcases List.mem_append.mp htl with htm | hts
        · exact holdp t htm
        · have hts2 : t = s := by simpa using hts
          subst hts2
          exact ⟨rfl, hsres, hreg⟩
      · exact h1 p hpm t htl
    · intro p hp
      rcases mem_mapInsert_nodup s.username _ p m.authedStms h3 hp with hpe | ⟨hpm, _⟩
      · subst hpe
        unfold distinctResources
        rw [List.pairwise_append]
        refine ⟨?_, ?_, ?_⟩
        · unfold distinctResources at holddist
          exact holddist
        · simp
        · intro a ha b hb
          have hbs : b = s := by simpa using hb
          subst hbs
          exact holdres a ha
      · exact h2 p hpm

theorem managerInv_unregister (m : Manager) (s : StreamRec) (h : managerInv m)
    (hguard : ∀ t, mapLookup s.id m.stms = some t → t = s) :
    managerInv (m.UnregisterStream s).1 := by
  obtain ⟨h1, h2, h3, h4⟩ := h
  rcases hlk : mapLookup s.id m.stms with _ | v
  · have hstep : m.UnregisterStream s = (m, some ("stream not found: " ++ s.id)) := by
      simp [Manager.UnregisterStream, hlk]
    rw [hstep]
    exact ⟨h1, h2, h3, h4⟩
  · have hlk2 : mapLookup s.id m.stms = some s := by
      rw [hlk, hguard v hlk]
    have htid : ∀ t : StreamRec, mapLookup t.id m.stms = some t → t.id = s.id → t = s := by
      intro t g3 he
      rw [he, hlk2] at g3
      exact (Option.some.inj g3).symm
    rcases hh : mapLookup s.username m.authedStms with _ | l
    · have hstep : m.UnregisterStream s =
          (Manager.mk m.domains (mapErase s.id m.stms) m.authedStms m.blockLists,
           none) := by
        simp [Manager.UnregisterStream, hlk, hh]
      rw [hstep]
      refine ⟨?_, h2, h3, nodup_keys_mapErase _ _ h4⟩
      intro p hp t htl
      obtain ⟨g1, g2, g3⟩ := h1 p hp t htl
      refine ⟨g1, g2, ?_⟩
      have hne : t.id ≠ s.id := by
        intro he
        have hts : t = s := htid t g3 he
        subst hts
        exact mapLookup_isSome_of_mem t.username p m.authedStms hp g1.symm hh
      rw [mapLookup_mapErase_ne s.id t.id m.stms hne]
      exact g3
    · have hmled : (s.username, l) ∈ m.authedStms := mapLookup_mem _ _ _ hh
      have hdl : distinctResources l := h2 _ hmled
      by_cases he : (removeFirstByResource s.resource l).isEmpty = true
      · have hstep : m.UnregisterStream s =
            (Manager.mk m.domains (mapErase s.id m.stms)
              (mapErase s.username m.authedStms) m.blockLists, none) := by
          simp [Manager.UnregisterStream, hlk, hh, he]
        rw [hstep]
        refine ⟨?_, ?_, nodup_keys_mapErase _ _ h3, nodup_keys_mapErase _ _ h4⟩
        · intro p hp t htl
          rcases mem_mapErase s.username p m.authedStms hp with ⟨hpm, hpk⟩
          obtain ⟨g1, g2, g3⟩ := h1 p hpm t htl
          refine ⟨g1, g2, ?_⟩
          have hne : t.id ≠ s.id := by
            intro he2
            have hts : t = s := htid t g3 he2
            subst hts
            exact hpk g1.symm
          rw [mapLookup_mapErase_ne s.id t.id m.stms hne]
          exact g3
        · intro p hp
          exact h2 p (mem_mapErase s.username p m.authedStms hp).1
      · have hstep : m.UnregisterStream s =
            (Manager.mk m.domains (mapErase s.id m.stms)
              (mapInsert s.username (removeFirstByResource s.resource l) m.authedStms)
              m.blockLists, none) := by
          simp [Manager.UnregisterStream, hlk, hh, he]
        rw [hstep]
        refine ⟨?_, ?_, nodup_keys_mapInsert _ _ _ h3, nodup_keys_mapErase _ _ h4⟩
        · intro p hp t htl
          rcases mem_mapInsert_nodup s.username _ p m.authedStms h3 hp with hpe | ⟨hpm, hpk⟩
          · subst hpe
            have html : t ∈ l := (removeFirstByResource_sublist s.resource l).subset htl
            obtain ⟨g1, g2, g3⟩ := h1 (s.username, l) hmled t html
            refine ⟨g1, g2, ?_⟩
            have hne : t.id ≠ s.id := by
              intro he2
              have hts : t = s := htid t g3 he2
              subst hts
              exact not_mem_removeFirstByResource t l hdl htl
            rw [mapLookup_mapErase_ne s.id t.id m.stms hne]
            exact g3
          · obtain ⟨g1, g2, g3⟩ := h1 p hpm t htl
            refine ⟨g1, g2, ?_⟩
            have hne : t.id ≠ s.id := by
              intro he2
              have hts : t = s := htid t g3 he2
              subst hts
              exact hpk g1.symm
            rw [mapLookup_mapErase_ne s.id t.id m.stms hne]
            exact g3
        · intro p hp
          rcases mem_mapInsert_nodup s.username _ p m.authedStms h3 hp with hpe | ⟨hpm, _⟩
          · subst hpe
            unfold distinctResources at hdl ⊢
            exact List.Pairwise.sublist (removeFirstByResource_sublist s.resource l) hdl
          · exact h2 p hpm

/-- The protocol-respecting reachable states satisfy the strengthened
invariant. -/
theorem reachableProto_managerInv (doms : List String) (m : Manager)
    (h : ReachableProto doms m) : managerInv m := by
  induction h with
  | init => exact managerInv_init doms
  | register s _ ih => exact managerInv_register _ s ih
  | unregister s _ hguard ih => exact managerInv_unregister _ s ih hguard
  | authenticate s _ hreg hfresh ih => exact managerInv_authenticate _ s ih hreg hfresh

/-- C8 counterexample: an unrestricted call sequence may invoke
AuthenticateStream on a never-registered stream; the resulting reachable
state has an authed entry that is absent from the streams map, so the
claimed invariant fails for arbitrary sequences. -/
theorem c8_counterexample :
    ReachableAny ["example.org"]
      ((initManager ["example.org"]).AuthenticateStream
        ⟨"id1", "alice", "example.org", "r", none, false, true⟩).1 ∧
    ¬ authedInvariant
      ((initManager ["example.org"]).AuthenticateStream
        ⟨"id1", "alice", "example.org", "r", none, false, true⟩).1 :=
  ⟨ReachableAny.authenticate _ ReachableAny.init, by decide⟩

/-- C8 (amended): in every state reachable by sequences in which
AuthenticateStream is invoked only on a currently registered stream whose
resource is not yet bound for its username, and UnregisterStream is passed
the stream registered under its id, every element of authed[u] has username
u, a non-empty resource, and still appears in the streams map. -/
theorem c8_amended (doms : List String) (m : Manager) (h : ReachableProto doms m) :
    authedInvariant m :=
  (reachableProto_managerInv doms m h).1

/-- C8 witness: the invariant at the concrete state reached by registering
and then authenticating one stream. -/
theorem c8_witness :
    authedInvariant
      (((initManager ["example.org"]).RegisterStream
          ⟨"id1", "alice", "example.org", "r", none, false, true⟩).1.AuthenticateStream
        ⟨"id1", "alice", "example.org", "r", none, false, true⟩).1 :=
  c8_amended ["example.org"] _
    (ReachableProto.authenticate _
      (ReachableProto.register _ ReachableProto.init) (by decide) (by decide))

end Jackal

